import Mathlib

/-!
Shallow embedding of the book catalog service in `src/Project_2/main.py`.

The program keeps a process-wide mutable list `BOOKS` of `Book` objects.
Each HTTP handler is embedded as an explicit state-passing function: it
takes the current contents of `BOOKS` and returns its result paired with
the contents of `BOOKS` after the handler ran.  HTTP errors
(`HTTPException 404`) and the Python `NameError` raised by the update
handlers (they read the flag `book_changed` before any assignment when no
record matches) are modelled with an `Except`-style error type.
Python's unbounded `int` is modelled by `Int`; `len` of a Python string
is `String.length`.
-/

/-- Entity stored in the in-memory collection (class `Book` in the source). -/
structure Book where
  id : Int
  title : String
  author : String
  description : String
  rating : Int
  published_date : Int
deriving DecidableEq, Repr

/-- Incoming payload shape (Pydantic model `BookRequest`): the field values a
client submits, before the per-field validation rules are checked.  `id` is
`Optional[int]` with default `None`. -/
structure BookRequest where
  id : Option Int
  title : String
  author : String
  description : String
  rating : Int
  published_date : Int
deriving DecidableEq, Repr

/-- Names of the validated fields, used to report which rules a payload
violated (Pydantic's ValidationError lists the offending fields). -/
inductive FieldName where
  | title
  | author
  | description
  | rating
  | published_date
deriving DecidableEq, Repr

/-- Fields of a payload that violate their `Field(...)` rule in `BookRequest`:
`title` needs `min_length=3`, `author` `min_length=1`, `description`
`min_length=1, max_length=100`, `rating` `gt=0, lt=6`, `published_date`
`gt=1999, lt=2024`.  Pydantic checks every field and reports all failures. -/
def violations (r : BookRequest) : List FieldName :=
  (if r.title.length < 3 then [FieldName.title] else [])
    ++ (if r.author.length < 1 then [FieldName.author] else [])
    ++ (if ¬ (1 ≤ r.description.length ∧ r.description.length ≤ 100) then
          [FieldName.description] else [])
    ++ (if ¬ (0 < r.rating ∧ r.rating < 6) then [FieldName.rating] else [])
    ++ (if ¬ (1999 < r.published_date ∧ r.published_date < 2024) then
          [FieldName.published_date] else [])

/-- The Validator: accept the payload exactly when no field rule is violated,
otherwise fail with the list of violated fields. -/
def validate (r : BookRequest) : Except (List FieldName) BookRequest :=
  if violations r = [] then Except.ok r else Except.error (violations r)

/-- Errors a handler can raise: `httpNotFound detail` is
`HTTPException(status_code=404, detail=...)`; `nameError` is the Python
`NameError` raised when `book_changed` is read without ever being assigned. -/
inductive ApiError where
  | httpNotFound (detail : String)
  | nameError
deriving DecidableEq, Repr

/-- Initial contents of the in-memory `BOOKS` list (module-level literal in
the source). -/
def BOOKS : List Book :=
  [⟨1, "Computer Science Pro", "codingwithroby", "A very nice book!", 5, 2030⟩,
   ⟨2, "Be Fast with FastAPI", "codingwithroby", "A great book!", 5, 2030⟩,
   ⟨3, "Master Endpoints", "codingwithroby", "A awesome book!", 5, 2029⟩,
   ⟨4, "HP1", "Author 1", "Book Description", 2, 2028⟩,
   ⟨5, "HP2", "Author 2", "Book Description", 3, 2027⟩,
   ⟨6, "HP3", "Author 3", "Book Description", 1, 2026⟩]

/-- Loop `for book in BOOKS: if p(book): books_to_return.append(book)`,
accumulating into `acc`. -/
def appendMatching (p : Book → Bool) (acc : List Book) : List Book → List Book
  | [] => acc
  | b :: rest => appendMatching p (if p b then acc ++ [b] else acc) rest

/-- Handler `GET /books`: returns the whole list; no mutation. -/
def read_all_books (books : List Book) : List Book × List Book :=
  (books, books)

/-- Handler `GET /books/published_year/{year}` (the first of the two handlers
registered on this path, hence the one Starlette dispatches to): collects all
books with the given published year and raises 404 when none matched. -/
def get_books_by_years (books : List Book) (year : Int) :
    Except ApiError (List Book) × List Book :=
  let books_to_return := appendMatching (fun b => b.published_date == year) [] books
  if books_to_return.isEmpty then
    (Except.error (ApiError.httpNotFound "No books found for this year"), books)
  else
    (Except.ok books_to_return, books)

/-- Second handler registered on `GET /books/published_year/{year}` in the
source: returns the first matching book or 404.  It is registered after
`get_books_by_years` on the same path, so it never receives a request;
embedded here only to document the duplicated route. -/
def get_books_by_years_single (books : List Book) (year : Int) :
    Except ApiError Book × List Book :=
  match books.find? (fun b => b.published_date == year) with
  | some b => (Except.ok b, books)
  | none => (Except.error (ApiError.httpNotFound "Item not found"), books)

/-- Handler `GET /books/{book_id}` with `Path(gt=0)`: first book with the
given id, else 404. -/
def read_book (books : List Book) (book_id : Int) :
    Except ApiError Book × List Book :=
  match books.find? (fun b => b.id == book_id) with
  | some b => (Except.ok b, books)
  | none => (Except.error (ApiError.httpNotFound "Item not found"), books)

/-- Handler `GET /books/` with `Query(gt=0, lt=6)`: all books with the given
rating; an empty list is returned as-is, never an error. -/
def read_book_by_rating (books : List Book) (book_rating : Int) :
    List Book × List Book :=
  (appendMatching (fun b => b.rating == book_rating) [] books, books)

/-- Id assigned to a newly created book:
`1 if len(BOOKS) == 0 else BOOKS[-1].id + 1`. -/
def newBookId (books : List Book) : Int :=
  match books.getLast? with
  | none => 1
  | some b => b.id + 1

/-- Helper `find_book_id`: overwrites the candidate's id with the generated
one. -/
def find_book_id (books : List Book) (book : Book) : Book :=
  { book with id := newBookId books }

/-- Book built from a payload's fields (`Book(**book_request.model_dump())`
gives the payload's fields; the stored update result `BOOKS[i] = book` has the
same field values with the matched integer id). -/
def bookOfRequest (idVal : Int) (r : BookRequest) : Book :=
  ⟨idVal, r.title, r.author, r.description, r.rating, r.published_date⟩

/-- Handler `POST /create-book`: builds a `Book` from the validated payload
(the payload's optional id, `None` by default, is immediately overwritten by
`find_book_id`, so the placeholder `req.id.getD 0` is unobservable) and
appends it. -/
def create_book (books : List Book) (req : BookRequest) : List Book :=
  books ++ [find_book_id books (bookOfRequest (req.id.getD 0) req)]

/-- Scan of the update handlers: replace the first book whose id equals the
payload's id (then `break`); `none` when no book matches. -/
def updateLoop (req : BookRequest) : List Book → Option (List Book)
  | [] => none
  | b :: rest =>
    if req.id == some b.id then some (bookOfRequest b.id req :: rest)
    else (updateLoop req rest).map (fun tail => b :: tail)

/-- Update handler (both route registrations in the source share this body):
on a match the book is replaced in place; on no match the line
`if not book_changed` reads `book_changed` before any assignment, so Python
raises `NameError` instead of the 404 path. -/
def update_book (books : List Book) (req : BookRequest) :
    Except ApiError Unit × List Book :=
  match updateLoop req books with
  | some books2 => (Except.ok (), books2)
  | none => (Except.error ApiError.nameError, books)

/-- Scan of `delete_book`: remove the first book with the given id (then
`break`); `none` when no book matches. -/
def deleteLoop (book_id : Int) : List Book → Option (List Book)
  | [] => none
  | b :: rest =>
    if b.id == book_id then some rest
    else (deleteLoop book_id rest).map (fun tail => b :: tail)

/-- Handler `DELETE /books/{book_id}` with `Path(gt=0)`: here `book_changed`
is initialized to `False` before the scan, so a missing id correctly raises
404. -/
def delete_book (books : List Book) (book_id : Int) :
    Except ApiError Unit × List Book :=
  match deleteLoop book_id books with
  | some books2 => (Except.ok (), books2)
  | none => (Except.error (ApiError.httpNotFound "Item not found"), books)

/-- States of the `BOOKS` list reachable from a start state by the mutating
handlers: successful creates of validated payloads, successful updates of
validated payloads, and successful deletes of a positive id.  Failed updates
and deletes leave the list unchanged, and the read handlers do not mutate, so
`refl` covers them. -/
inductive Reachable : List Book → List Book → Prop where
  | refl : Reachable s s
  | create (t : List Book) (req : BookRequest) :
      Reachable s t → violations req = [] → Reachable s (create_book t req)
  | update (t t' : List Book) (req : BookRequest) :
      Reachable s t → violations req = [] → updateLoop req t = some t' →
      Reachable s t'
  | delete (t t' : List Book) (i : Int) :
      Reachable s t → 0 < i → deleteLoop i t = some t' → Reachable s t'

/-- The ids of the stored books, in storage order, are strictly increasing. -/
def IdsSorted (books : List Book) : Prop :=
  (books.map Book.id).Pairwise (· < ·)

/-- Field bounds every stored record satisfies at every reachable state: the
validator's rules except that the published-year upper bound is 2031 rather
than 2024 (the seed data uses years up to 2030). -/
def WithinBounds (b : Book) : Prop :=
  3 ≤ b.title.length ∧ 1 ≤ b.author.length ∧
    1 ≤ b.description.length ∧ b.description.length ≤ 100 ∧
    1 ≤ b.rating ∧ b.rating ≤ 5 ∧
    1999 < b.published_date ∧ b.published_date < 2031

/-- A sample payload that passes validation, used to instantiate theorems. -/
def validReq : BookRequest :=
  ⟨none, "A new book", "codingwithroby", "A new description of a book", 5, 2020⟩

/-- A payload whose id matches no stored book, used to exhibit the update
defect. -/
def reqUnknownId : BookRequest :=
  ⟨some 999, "A new book", "codingwithroby", "A new description of a book", 5, 2020⟩

/-- A payload violating several rules at once: title too short, empty author,
rating 0, year out of bounds. -/
def badReq : BookRequest :=
  ⟨none, "ab", "", "ok", 0, 1980⟩

/-- Sequence of states obtained by running `create_book` once per payload. -/
def createAll (reqs : List BookRequest) : List Book :=
  reqs.foldl create_book []

/-- The list of integers 1, 2, ..., n. -/
def idsUpTo (n : Nat) : List Int :=
  (List.range n).map (fun k => Int.ofNat k + 1)

/-- State reached from the empty collection by three creates followed by
deleting the middle id 2: the books with ids 1 and 3 remain. -/
def demoState : List Book :=
  [bookOfRequest 1 validReq, bookOfRequest 3 validReq]

/-- The seed collection after a successful delete of id 3. -/
def BOOKSwithout3 : List Book :=
  [⟨1, "Computer Science Pro", "codingwithroby", "A very nice book!", 5, 2030⟩,
   ⟨2, "Be Fast with FastAPI", "codingwithroby", "A great book!", 5, 2030⟩,
   ⟨4, "HP1", "Author 1", "Book Description", 2, 2028⟩,
   ⟨5, "HP2", "Author 2", "Book Description", 3, 2027⟩,
   ⟨6, "HP3", "Author 3", "Book Description", 1, 2026⟩]

example : violations validReq = [] := by decide
example : newBookId BOOKS = 7 := by decide
example : (update_book BOOKS reqUnknownId).1 = Except.error ApiError.nameError := rfl

/-! Helper lemmas about the embedded operations. -/

theorem appendMatching_eq_filter (p : Book → Bool) :
    ∀ (l acc : List Book), appendMatching p acc l = acc ++ l.filter p := by
  intro l
  induction l with
  | nil => intro acc; simp [appendMatching]
  | cons b rest ih =>
    intro acc
    by_cases hb : p b
    · simp [appendMatching, hb, ih, List.filter_cons]
    · simp [appendMatching, hb, ih, List.filter_cons]

theorem getLast?_mem_int : ∀ {l : List Int} {x : Int}, l.getLast? = some x → x ∈ l
  | [a], x, h => by
      simp only [List.getLast?_singleton, Option.some.injEq] at h
      simp [h]
  | a :: b :: l, x, h => by
      rw [List.getLast?_cons_cons] at h
      exact List.mem_cons_of_mem a (getLast?_mem_int h)

theorem pairwise_le_getLast :
    ∀ {l : List Int}, l.Pairwise (· < ·) →
      ∀ {x : Int}, l.getLast? = some x → ∀ a ∈ l, a ≤ x
  | [a], _, x, hx => by
      simp only [List.getLast?_singleton, Option.some.injEq] at hx
      intro a' ha'
      simp only [List.mem_singleton] at ha'
      omega
  | a :: b :: l, h, x, hx => by
      rw [List.getLast?_cons_cons] at hx
      intro a' ha'
      rcases List.mem_cons.mp ha' with rfl | ha2
      · have hlt : ∀ y ∈ b :: l, a' < y := (List.pairwise_cons.mp h).1
        exact le_of_lt (hlt x (getLast?_mem_int hx))
      · exact pairwise_le_getLast (List.pairwise_cons.mp h).2 hx a' ha2

theorem lt_newBookId {t : List Book} (h : IdsSorted t) :
    ∀ b ∈ t, b.id < newBookId t := by
  intro b hb
  cases hl : t.getLast? with
  | none =>
    rw [List.getLast?_eq_none_iff] at hl
    subst hl
    simp at hb
  | some c =>
    have hle : b.id ≤ c.id := by
      refine pairwise_le_getLast h ?_ b.id (List.mem_map_of_mem Book.id hb)
      rw [List.getLast?_map, hl]
      rfl
    have hn : newBookId t = c.id + 1 := by
      unfold newBookId
      rw [hl]
    omega

theorem find_book_id_bookOfRequest (t : List Book) (x : Int) (req : BookRequest) :
    find_book_id t (bookOfRequest x req) = bookOfRequest (newBookId t) req := rfl

theorem idsSorted_create {t : List Book} (req : BookRequest) (h : IdsSorted t) :
    IdsSorted (create_book t req) := by
  unfold IdsSorted create_book
  rw [List.map_append, List.pairwise_append]
  refine ⟨h, List.pairwise_singleton _ _, ?_⟩
  intro a ha c hc
  simp only [List.map_cons, List.map_nil, List.mem_singleton] at hc
  subst hc
  simp only [List.mem_map] at ha
  obtain ⟨b, hb, rfl⟩ := ha
  exact lt_newBookId h b hb

theorem updateLoop_map_id {req : BookRequest} :
    ∀ {t t' : List Book}, updateLoop req t = some t' →
      t'.map Book.id = t.map Book.id := by
  intro t
  induction t with
  | nil => intro t' h; simp [updateLoop] at h
  | cons b rest ih =>
    intro t' h
    simp only [updateLoop] at h
    split at h
    · cases h
      simp [bookOfRequest]
    · cases hrest : updateLoop req rest with
      | none => rw [hrest] at h; simp at h
      | some r' =>
        rw [hrest] at h
        simp only [Option.map_some', Option.some.injEq] at h
        subst h
        simp [ih hrest]

theorem updateLoop_mem {req : BookRequest} :
    ∀ {t t' : List Book}, updateLoop req t = some t' →
      ∀ b ∈ t', b ∈ t ∨ ∃ i, b = bookOfRequest i req := by
  intro t
  induction t with
  | nil => intro t' h; simp [updateLoop] at h
  | cons b rest ih =>
    intro t' h
    simp only [updateLoop] at h
    split at h
    · cases h
      intro c hc
      rcases List.mem_cons.mp hc with rfl | hc2
      · exact Or.inr ⟨b.id, rfl⟩
      · exact Or.inl (List.mem_cons_of_mem b hc2)
    · cases hrest : updateLoop req rest with
      | none => rw [hrest] at h; simp at h
      | some r' =>
        rw [hrest] at h
        simp only [Option.map_some', Option.some.injEq] at h
        subst h
        intro c hc
        rcases List.mem_cons.mp hc with rfl | hc2
        · exact Or.inl (List.mem_cons_self c rest)
        · rcases ih hrest c hc2 with hin | hreq
          · exact Or.inl (List.mem_cons_of_mem b hin)
          · exact Or.inr hreq

theorem updateLoop_none_iff (req : BookRequest) :
    ∀ (t : List Book), updateLoop req t = none ↔ ∀ b ∈ t, req.id ≠ some b.id := by
  intro t
  induction t with
  | nil => simp [updateLoop]
  | cons b rest ih =>
    simp only [updateLoop]
    by_cases hb : req.id = some b.id
    · simp [hb]
    · simp [hb, Option.map_eq_none', ih]

theorem deleteLoop_sublist {i : Int} :
    ∀ {t t' : List Book}, deleteLoop i t = some t' → t'.Sublist t := by
  intro t
  induction t with
  | nil => intro t' h; simp [deleteLoop] at h
  | cons b rest ih =>
    intro t' h
    simp only [deleteLoop] at h
    split at h
    · cases h
      exact List.sublist_cons_self b rest
    · cases hrest : deleteLoop i rest with
      | none => rw [hrest] at h; simp at h
      | some r' =>
        rw [hrest] at h
        simp only [Option.map_some', Option.some.injEq] at h
        subst h
        exact List.Sublist.cons₂ b (ih hrest)

theorem deleteLoop_not_mem {i : Int} :
    ∀ {t t' : List Book}, (t.map Book.id).Nodup → deleteLoop i t = some t' →
      ∀ b ∈ t', b.id ≠ i := by
  intro t
  induction t with
  | nil => intro t' _ h; simp [deleteLoop] at h
  | cons b rest ih =>
    intro t' hnd h
    simp only [List.map_cons, List.nodup_cons] at hnd
    simp only [deleteLoop] at h
    split at h
    · cases h
      rename_i hbeq
      have hbi : b.id = i := by simpa using hbeq
      intro c hc hci
      exact hnd.1 (hbi ▸ hci ▸ List.mem_map_of_mem Book.id hc)
    · cases hrest : deleteLoop i rest with
      | none => rw [hrest] at h; simp at h
      | some r' =>
        rw [hrest] at h
        simp only [Option.map_some', Option.some.injEq] at h
        subst h
        rename_i hbeq
        intro c hc
        rcases List.mem_cons.mp hc with rfl | hc2
        · simpa using hbeq
        · exact ih hnd.2 hrest c hc2

theorem deleteLoop_none_iff (i : Int) :
    ∀ (t : List Book), deleteLoop i t = none ↔ ∀ b ∈ t, b.id ≠ i := by
  intro t
  induction t with
  | nil => simp [deleteLoop]
  | cons b rest ih =>
    simp only [deleteLoop]
    by_cases hb : b.id = i
    · simp [hb]
    · simp [hb, Option.map_eq_none', ih]

theorem idsSorted_nodup {t : List Book} (h : IdsSorted t) : (t.map Book.id).Nodup :=
  h.imp (fun hlt => ne_of_lt hlt)

theorem reachable_sorted {s t : List Book} (h : Reachable s t) (hs : IdsSorted s) :
    IdsSorted t := by
  induction h with
  | refl => exact hs
  | create t req _ _ ih => exact idsSorted_create req ih
  | update t t' req _ _ hu ih =>
    unfold IdsSorted at ih ⊢
    rw [updateLoop_map_id hu]
    exact ih
  | delete t t' i _ _ hd ih =>
    exact List.Pairwise.sublist (List.Sublist.map Book.id (deleteLoop_sublist hd)) ih

theorem BOOKS_sorted : IdsSorted BOOKS := by
  unfold IdsSorted
  decide

theorem violations_eq_nil_iff (r : BookRequest) :
    violations r = [] ↔
      (3 ≤ r.title.length ∧ 1 ≤ r.author.length ∧
        1 ≤ r.description.length ∧ r.description.length ≤ 100 ∧
        0 < r.rating ∧ r.rating < 6 ∧
        1999 < r.published_date ∧ r.published_date < 2024) := by
  unfold violations
  split_ifs with h1 h2 h3 h4 h5 <;> simp_all <;> omega

theorem withinBounds_of_valid (i : Int) {req : BookRequest}
    (h : violations req = []) : WithinBounds (bookOfRequest i req) := by
  rw [violations_eq_nil_iff] at h
  unfold WithinBounds bookOfRequest
  dsimp only
  omega

theorem reachable_bounds {s t : List Book} (h : Reachable s t)
    (hs : ∀ b ∈ s, WithinBounds b) : ∀ b ∈ t, WithinBounds b := by
  induction h with
  | refl => exact hs
  | create t req _ hv ih =>
    intro b hb
    unfold create_book at hb
    rcases List.mem_append.mp hb with hb1 | hb2
    · exact ih b hb1
    · rw [List.mem_singleton] at hb2
      subst hb2
      rw [find_book_id_bookOfRequest]
      exact withinBounds_of_valid _ hv
  | update t t' req _ hv hu ih =>
    intro b hb
    rcases updateLoop_mem hu b hb with hb1 | ⟨i, rfl⟩
    · exact ih b hb1
    · exact withinBounds_of_valid i hv
  | delete t t' i _ _ hd ih =>
    intro b hb
    exact ih b ((deleteLoop_sublist hd).subset hb)

theorem BOOKS_bounds : ∀ b ∈ BOOKS, WithinBounds b := by
  unfold BOOKS WithinBounds
  decide

theorem idsUpTo_succ (n : Nat) : idsUpTo (n + 1) = idsUpTo n ++ [Int.ofNat n + 1] := by
  unfold idsUpTo
  rw [List.range_succ, List.map_append]
  rfl

theorem create_book_map_id {s : List Book} {n : Nat} (req : BookRequest)
    (hs : s.map Book.id = idsUpTo n) :
    (create_book s req).map Book.id = idsUpTo (n + 1) := by
  unfold create_book
  rw [List.map_append, hs, idsUpTo_succ]
  congr 1
  have hnew : newBookId s = Int.ofNat n + 1 := by
    cases n with
    | zero =>
      have hsnil : s = [] := by
        have := congrArg List.length hs
        simpa [idsUpTo] using this
      rw [hsnil]
      rfl
    | succ m =>
      have hne : s ≠ [] := by
        intro hcontra
        rw [hcontra] at hs
        have := congrArg List.length hs
        simp [idsUpTo] at this
      cases hl : s.getLast? with
      | none =>
        rw [List.getLast?_eq_none_iff] at hl
        exact absurd hl hne
      | some c =>
        have hcid : some c.id = some (Int.ofNat m + 1) := by
          calc some c.id = (s.map Book.id).getLast? := by
                rw [List.getLast?_map, hl]
                rfl
            _ = (idsUpTo (m + 1)).getLast? := by rw [hs]
            _ = some (Int.ofNat m + 1) := by
                rw [idsUpTo_succ]
                exact List.getLast?_concat _
        have hc : c.id = Int.ofNat m + 1 := by simpa using hcid
        have hn2 : newBookId s = c.id + 1 := by
          unfold newBookId
          rw [hl]
        rw [hn2, hc]
        rw [show Int.ofNat (m + 1) = Int.ofNat m + 1 from rfl]
  simp [find_book_id, hnew]

theorem foldl_create_ids :
    ∀ (reqs : List BookRequest) (s : List Book) (n : Nat),
      s.map Book.id = idsUpTo n →
      (reqs.foldl create_book s).map Book.id = idsUpTo (n + reqs.length) := by
  intro reqs
  induction reqs with
  | nil => intro s n hs; simpa using hs
  | cons r rs ih =>
    intro s n hs
    simp only [List.foldl_cons, List.length_cons]
    have step := create_book_map_id r hs
    have h2 := ih (create_book s r) (n + 1) step
    rw [h2, show n + 1 + rs.length = n + (rs.length + 1) from by omega]

theorem createAll_map_id (reqs : List BookRequest) :
    (createAll reqs).map Book.id = idsUpTo reqs.length := by
  have h := foldl_create_ids reqs [] 0 (by rfl)
  simpa using h

/-! Claim theorems. -/

/-- Claim C2 (code bug evidence): updating with an id (999) that matches no
stored record makes `update_book` fail with the Python `NameError` coming
from the uninitialized `book_changed` flag, not with the 404 `NotFound` the
specification requires; the collection itself is left unchanged. -/
theorem c2_update_unknown_id_bug :
    update_book BOOKS reqUnknownId = (Except.error ApiError.nameError, BOOKS)
    ∧ (Except.error ApiError.nameError : Except ApiError Unit)
        ≠ Except.error (ApiError.httpNotFound "Item not found") := by
  refine ⟨rfl, ?_⟩
  intro h
  simp at h

/-- Claim C3, counterexample: for year 2020 (inside the configured bound
1999 < year < 2024) no stored book matches, and the year filter raises a 404
error instead of returning the empty sequence the claim promises. -/
theorem c3_counterexample :
    (1999 : Int) < 2020 ∧ (2020 : Int) < 2024
    ∧ BOOKS.filter (fun b => b.published_date == (2020 : Int)) = []
    ∧ (get_books_by_years BOOKS 2020).1
        = Except.error (ApiError.httpNotFound "No books found for this year") := by
  exact ⟨by decide, by decide, rfl, rfl⟩

/-- Claim C3 (amended): for every year in the configured bound,
`get_books_by_years` leaves the collection unchanged and returns exactly the
records whose published year equals the argument, in insertion order; but
when no record matches it fails with a 404 `NotFound` instead of returning an
empty sequence. -/
theorem c3_filter_by_year (books : List Book) (year : Int)
    (hy1 : 1999 < year) (hy2 : year < 2024) :
    (get_books_by_years books year).2 = books
    ∧ (get_books_by_years books year).1
        = (if books.filter (fun b => b.published_date == year) = [] then
            Except.error (ApiError.httpNotFound "No books found for this year")
          else Except.ok (books.filter (fun b => b.published_date == year)))
    ∧ (∀ b, b ∈ books.filter (fun b => b.published_date == year) ↔
        b ∈ books ∧ b.published_date = year)
    ∧ (books.filter (fun b => b.published_date == year)).Sublist books := by
  refine ⟨?_, ?_, ?_, List.filter_sublist books⟩
  · simp only [get_books_by_years]
    split <;> rfl
  · simp only [get_books_by_years, appendMatching_eq_filter, List.nil_append]
    by_cases hc : books.filter (fun b => b.published_date == year) = []
    · rw [if_pos hc]
      rw [if_pos (List.isEmpty_iff.mpr hc)]
    · rw [if_neg hc]
      rw [if_neg (fun hcontra => hc (List.isEmpty_iff.mp hcontra))]
  · intro b
    simp [List.mem_filter]

/-- Witness for `c3_filter_by_year` at a concrete collection (the seed books
plus one created book with year 2020) and the concrete year 2020. -/
theorem c3_filter_by_year_witness :
    ((get_books_by_years (create_book BOOKS validReq) 2020).2
        = create_book BOOKS validReq)
    ∧ ((get_books_by_years (create_book BOOKS validReq) 2020).1
        = (if (create_book BOOKS validReq).filter
              (fun b => b.published_date == (2020 : Int)) = [] then
            Except.error (ApiError.httpNotFound "No books found for this year")
          else Except.ok ((create_book BOOKS validReq).filter
              (fun b => b.published_date == (2020 : Int)))))
    ∧ (∀ b, b ∈ (create_book BOOKS validReq).filter
          (fun b => b.published_date == (2020 : Int)) ↔
        b ∈ create_book BOOKS validReq ∧ b.published_date = 2020)
    ∧ ((create_book BOOKS validReq).filter
          (fun b => b.published_date == (2020 : Int))).Sublist
        (create_book BOOKS validReq) :=
  c3_filter_by_year (create_book BOOKS validReq) 2020 (by decide) (by decide)

/-- Claim C10: the four read handlers return the collection component
unchanged: no record is added, removed or modified, and the order is kept. -/
theorem c10_reads_no_mutation (books : List Book)
    (book_id year book_rating : Int) :
    (read_all_books books).2 = books
    ∧ (read_book books book_id).2 = books
    ∧ (read_book_by_rating books book_rating).2 = books
    ∧ (get_books_by_years books year).2 = books := by
  refine ⟨rfl, ?_, rfl, ?_⟩
  · unfold read_book
    cases books.find? (fun b => b.id == book_id) <;> rfl
  · simp only [get_books_by_years]
    split <;> rfl

/-- Claim C1: starting from the empty collection, a pure sequence of creates
assigns the ids 1, 2, ..., n, strictly increasing by 1; and in any state
reachable from the empty collection by creates, updates and deletes, the
stored ids are pairwise distinct, the id the next create assigns exceeds
every stored id, and after that create the ids are still pairwise
distinct. -/
theorem c1_id_assignment (reqs : List BookRequest) (t : List Book)
    (req : BookRequest) (h : Reachable [] t) :
    (createAll reqs).map Book.id = idsUpTo reqs.length
    ∧ (t.map Book.id).Nodup
    ∧ (∀ b ∈ t, b.id < newBookId t)
    ∧ ((create_book t req).map Book.id).Nodup := by
  have hsorted : IdsSorted t := by
    refine reachable_sorted h ?_
    unfold IdsSorted
    simp
  exact ⟨createAll_map_id reqs, idsSorted_nodup hsorted, lt_newBookId hsorted,
    idsSorted_nodup (idsSorted_create req hsorted)⟩

/-- Witness for `c1_id_assignment`: three creates from the empty collection,
then a delete of the middle id 2, then one more create. -/
theorem c1_witness :
    (createAll [validReq, validReq, validReq]).map Book.id = idsUpTo 3
    ∧ (demoState.map Book.id).Nodup
    ∧ (∀ b ∈ demoState, b.id < newBookId demoState)
    ∧ ((create_book demoState validReq).map Book.id).Nodup := by
  have h0 : Reachable ([] : List Book) [] := Reachable.refl
  have h1 := Reachable.create [] validReq h0 (by decide)
  have h2 := Reachable.create _ validReq h1 (by decide)
  have h3 := Reachable.create _ validReq h2 (by decide)
  have h4 : Reachable ([] : List Book) demoState :=
    Reachable.delete _ demoState 2 h3 (by decide) (by rfl)
  exact c1_id_assignment [validReq, validReq, validReq] demoState validReq h4

/-- Claim C4, counterexample: the seed collection is a reachable state, yet
its first record has published year 2030, violating the claimed constraint
publishedYear < 2024. -/
theorem c4_counterexample :
    Reachable BOOKS BOOKS
    ∧ (⟨1, "Computer Science Pro", "codingwithroby", "A very nice book!",
          5, 2030⟩ : Book) ∈ BOOKS
    ∧ ¬ ((⟨1, "Computer Science Pro", "codingwithroby", "A very nice book!",
          5, 2030⟩ : Book).published_date < 2024) :=
  ⟨Reachable.refl, by decide, by decide⟩

/-- Claim C4 (amended): in every state reachable from the seed collection,
every stored record satisfies the validator's title, author, description and
rating constraints, and its published year lies strictly between 1999 and
2031 - not below 2024 as claimed, since the seed records use years
2026-2030. -/
theorem c4_stored_bounds (t : List Book) (h : Reachable BOOKS t) :
    ∀ b ∈ t, WithinBounds b :=
  reachable_bounds h BOOKS_bounds

/-- Witness for `c4_stored_bounds`: the first seed record, in the initial
(reachable) state. -/
theorem c4_witness :
    WithinBounds (⟨1, "Computer Science Pro", "codingwithroby",
      "A very nice book!", 5, 2030⟩ : Book) :=
  c4_stored_bounds BOOKS Reachable.refl _ (by decide)

/-- Claim C5: a payload violating any field rule is rejected by the
Validator with the list of violated fields - it is never turned into an
accepted candidate - and every individually violated rule is reported, so a
payload violating several rules at once is rejected as well. -/
theorem c5_validator_rejects (r : BookRequest)
    (h : r.title.length < 3 ∨ r.author.length < 1 ∨ r.description.length < 1 ∨
      100 < r.description.length ∨ r.rating < 1 ∨ 5 < r.rating ∨
      r.published_date ≤ 1999 ∨ 2024 ≤ r.published_date) :
    (∀ r', validate r ≠ Except.ok r')
    ∧ validate r = Except.error (violations r)
    ∧ violations r ≠ []
    ∧ (r.title.length < 3 → FieldName.title ∈ violations r)
    ∧ (r.author.length < 1 → FieldName.author ∈ violations r)
    ∧ (r.description.length < 1 ∨ 100 < r.description.length →
        FieldName.description ∈ violations r)
    ∧ (r.rating < 1 ∨ 5 < r.rating → FieldName.rating ∈ violations r)
    ∧ (r.published_date ≤ 1999 ∨ 2024 ≤ r.published_date →
        FieldName.published_date ∈ violations r) := by
  have hne : violations r ≠ [] := by
    intro hcontra
    rw [violations_eq_nil_iff] at hcontra
    omega
  refine ⟨?_, ?_, hne, ?_, ?_, ?_, ?_, ?_⟩
  · intro r' hcontra
    unfold validate at hcontra
    rw [if_neg hne] at hcontra
    exact Except.noConfusion hcontra
  · unfold validate
    rw [if_neg hne]
  · intro hc
    simp [violations, hc]
  · intro hc
    simp [violations, hc]
  · intro hc
    have hcond : ¬ (1 ≤ r.description.length ∧ r.description.length ≤ 100) := by
      omega
    simp [violations, hcond]
  · intro hc
    have hcond : ¬ (0 < r.rating ∧ r.rating < 6) := by omega
    simp [violations, hcond]
  · intro hc
    have hcond : ¬ (1999 < r.published_date ∧ r.published_date < 2024) := by
      omega
    simp [violations, hcond]

/-- Witness for `c5_validator_rejects`: `badReq` violates the title, author,
rating and published-year rules simultaneously. -/
theorem c5_witness :
    (badReq.title.length < 3 ∨ badReq.author.length < 1 ∨
      badReq.description.length < 1 ∨ 100 < badReq.description.length ∨
      badReq.rating < 1 ∨ 5 < badReq.rating ∨
      badReq.published_date ≤ 1999 ∨ 2024 ≤ badReq.published_date)
    ∧ ((∀ r', validate badReq ≠ Except.ok r')
      ∧ validate badReq = Except.error (violations badReq)
      ∧ violations badReq ≠ []
      ∧ (badReq.title.length < 3 → FieldName.title ∈ violations badReq)
      ∧ (badReq.author.length < 1 → FieldName.author ∈ violations badReq)
      ∧ (badReq.description.length < 1 ∨ 100 < badReq.description.length →
          FieldName.description ∈ violations badReq)
      ∧ (badReq.rating < 1 ∨ 5 < badReq.rating →
          FieldName.rating ∈ violations badReq)
      ∧ (badReq.published_date ≤ 1999 ∨ 2024 ≤ badReq.published_date →
          FieldName.published_date ∈ violations badReq)) :=
  ⟨by decide, c5_validator_rejects badReq (by decide)⟩

/-- Claim C6: in every reachable state, `read_book` fails with 404
`Item not found` exactly when no stored record has the requested id, and a
successful lookup returns a stored record with that id which is the unique
such record. -/
theorem c6_get_by_id (t : List Book) (h : Reachable BOOKS t) (book_id : Int)
    (hpos : 0 < book_id) :
    ((read_book t book_id).1
        = Except.error (ApiError.httpNotFound "Item not found")
      ↔ ∀ b ∈ t, b.id ≠ book_id)
    ∧ (∀ b, (read_book t book_id).1 = Except.ok b →
        b ∈ t ∧ b.id = book_id ∧ ∀ b' ∈ t, b'.id = book_id → b' = b) := by
  have hnd : (t.map Book.id).Nodup :=
    idsSorted_nodup (reachable_sorted h BOOKS_sorted)
  unfold read_book
  cases hf : t.find? (fun b => b.id == book_id) with
  | none =>
    rw [List.find?_eq_none] at hf
    refine ⟨⟨fun _ => ?_, fun _ => rfl⟩, ?_⟩
    · intro b hb
      simpa using hf b hb
    · intro b hcontra
      exact Except.noConfusion hcontra
  | some b0 =>
    have hmem := List.mem_of_find?_eq_some hf
    have hid : b0.id = book_id := by simpa using List.find?_some hf
    refine ⟨⟨fun hcontra => ?_, fun hall => ?_⟩, ?_⟩
    · exact Except.noConfusion hcontra
    · exact absurd hid (hall b0 hmem)
    · intro b hb
      have hb' : Except.ok b0 = Except.ok b := hb
      injection hb' with hb0
      subst hb0
      exact ⟨hmem, hid, fun b' hb2 hid2 =>
        List.inj_on_of_nodup_map hnd hb2 hmem (by rw [hid2, hid])⟩

/-- Witness for `c6_get_by_id`: looking up id 3 in the seed collection. -/
theorem c6_witness :
    (0 : Int) < 3
    ∧ (((read_book BOOKS 3).1
          = Except.error (ApiError.httpNotFound "Item not found")
        ↔ ∀ b ∈ BOOKS, b.id ≠ 3)
      ∧ (∀ b, (read_book BOOKS 3).1 = Except.ok b →
          b ∈ BOOKS ∧ b.id = 3 ∧ ∀ b' ∈ BOOKS, b'.id = 3 → b' = b)) :=
  ⟨by decide, c6_get_by_id BOOKS Reachable.refl 3 (by decide)⟩

/-- Claim C7: for a rating in [1,5], the rating filter mutates nothing and
returns exactly the stored records with that rating, in insertion order (a
sublist of the collection), and the empty list - not an error - when none
match. -/
theorem c7_filter_by_rating (books : List Book) (r : Int)
    (h1 : 1 ≤ r) (h2 : r ≤ 5) :
    (read_book_by_rating books r).2 = books
    ∧ (read_book_by_rating books r).1 = books.filter (fun b => b.rating == r)
    ∧ ((read_book_by_rating books r).1).Sublist books
    ∧ (∀ b, b ∈ (read_book_by_rating books r).1 ↔ b ∈ books ∧ b.rating = r)
    ∧ ((read_book_by_rating books r).1 = [] ↔ ∀ b ∈ books, b.rating ≠ r) := by
  have hfil : (read_book_by_rating books r).1
      = books.filter (fun b => b.rating == r) := by
    unfold read_book_by_rating
    simp [appendMatching_eq_filter]
  refine ⟨rfl, hfil, ?_, ?_, ?_⟩
  · rw [hfil]
    exact List.filter_sublist books
  · intro b
    rw [hfil]
    simp [List.mem_filter]
  · rw [hfil, List.filter_eq_nil_iff]
    simp

/-- Witness for `c7_filter_by_rating`: rating 5 on the seed collection. -/
theorem c7_witness :
    (1 : Int) ≤ 5 ∧ (5 : Int) ≤ 5
    ∧ ((read_book_by_rating BOOKS 5).2 = BOOKS
      ∧ (read_book_by_rating BOOKS 5).1
          = BOOKS.filter (fun b => b.rating == (5 : Int))
      ∧ ((read_book_by_rating BOOKS 5).1).Sublist BOOKS
      ∧ (∀ b, b ∈ (read_book_by_rating BOOKS 5).1 ↔ b ∈ BOOKS ∧ b.rating = 5)
      ∧ ((read_book_by_rating BOOKS 5).1 = [] ↔ ∀ b ∈ BOOKS, b.rating ≠ 5)) :=
  ⟨by decide, by decide, c7_filter_by_rating BOOKS 5 (by decide) (by decide)⟩

/-- Claim C8: in every reachable state, creating a validated candidate and
then reading the assigned id back returns a record carrying exactly the
candidate's title, author, description, rating and published year, together
with the assigned id. -/
theorem c8_create_roundtrip (t : List Book) (h : Reachable BOOKS t)
    (req : BookRequest) (hv : violations req = []) :
    (read_book (create_book t req) (newBookId t)).1
      = Except.ok (bookOfRequest (newBookId t) req) := by
  have hsorted := reachable_sorted h BOOKS_sorted
  have hnone : t.find? (fun b => b.id == newBookId t) = none := by
    rw [List.find?_eq_none]
    intro b hb
    have hlt := lt_newBookId hsorted b hb
    simp only [beq_iff_eq]
    omega
  unfold read_book create_book
  rw [find_book_id_bookOfRequest, List.find?_append, hnone]
  have hself : ((bookOfRequest (newBookId t) req).id == newBookId t) = true := by
    simp [bookOfRequest]
  simp [List.find?_cons, hself]

/-- Witness for `c8_create_roundtrip`: creating `validReq` on the seed
collection (assigned id 7) and reading id 7 back. -/
theorem c8_witness :
    violations validReq = []
    ∧ (read_book (create_book BOOKS validReq) (newBookId BOOKS)).1
        = Except.ok (bookOfRequest (newBookId BOOKS) validReq) :=
  ⟨by decide, c8_create_roundtrip BOOKS Reachable.refl validReq (by decide)⟩

/-- Claim C9: in every reachable state, after a successful delete of an id
the lookup of that id fails with 404 `Item not found`. -/
theorem c9_delete_then_get (t : List Book) (h : Reachable BOOKS t)
    (book_id : Int) (t' : List Book)
    (hdel : delete_book t book_id = (Except.ok (), t')) :
    (read_book t' book_id).1
      = Except.error (ApiError.httpNotFound "Item not found") := by
  have hnd : (t.map Book.id).Nodup :=
    idsSorted_nodup (reachable_sorted h BOOKS_sorted)
  have hsome : deleteLoop book_id t = some t' := by
    unfold delete_book at hdel
    cases hd : deleteLoop book_id t with
    | none =>
      rw [hd] at hdel
      simp at hdel
    | some l =>
      rw [hd] at hdel
      have h2 : l = t' := congrArg Prod.snd hdel
      rw [h2]
  have hnomem : ∀ b ∈ t', b.id ≠ book_id := deleteLoop_not_mem hnd hsome
  unfold read_book
  cases hf : t'.find? (fun b => b.id == book_id) with
  | none => rfl
  | some b =>
    have hmem := List.mem_of_find?_eq_some hf
    have hid : b.id = book_id := by simpa using List.find?_some hf
    exact absurd hid (hnomem b hmem)

/-- Witness for `c9_delete_then_get`: deleting id 3 from the seed collection
and looking id 3 up afterwards. -/
theorem c9_witness :
    delete_book BOOKS 3 = (Except.ok (), BOOKSwithout3)
    ∧ (read_book BOOKSwithout3 3).1
        = Except.error (ApiError.httpNotFound "Item not found") :=
  ⟨rfl, c9_delete_then_get BOOKS Reachable.refl 3 BOOKSwithout3 rfl⟩
